import Mathlib

/-!
Verification of the chunked-upload service implemented in
`src/api/upload-chunked.js` of the `interceptor-4x4` repository.

The JavaScript handler is shallowly embedded as a pure Lean function over an
explicit file store.  Files kept under `/tmp/chunked-uploads` are modelled as
a partial map from file names (lists of characters, mirroring the JavaScript
path strings built by template literals) to typed file contents.  Machine
arithmetic of the source (32-bit words inside MD5) is modelled as `Nat`
with explicit `% 2^32`; the floating point confidence arithmetic of the
source is modelled over `ℚ`, with `Math.round` modelled as `round` (both
compute `⌊x + 1/2⌋` on the non-negative values that occur here).

The MD5 digest used by the source (`createHash('md5')`) is implemented
concretely (RFC 1321), so that session ids, content hashes and the
hash-derived chunk confidences evaluate exactly as in the source.
-/

set_option maxRecDepth 100000

namespace Interceptor

/-! ## Decimal rendering of numbers (JavaScript template literals) -/

/-- The character for a single decimal digit, as produced when JavaScript
interpolates a number into a template literal. -/
def digitChar : Nat → Char
  | 0 => '0' | 1 => '1' | 2 => '2' | 3 => '3' | 4 => '4'
  | 5 => '5' | 6 => '6' | 7 => '7' | 8 => '8' | 9 => '9'
  | _ => '*'

/-- Fuel-driven decimal rendering helper (structural recursion on the fuel so
that the kernel can evaluate it). -/
def natCharsAux : Nat → Nat → List Char
  | 0, _ => []
  | fuel + 1, n =>
    if n < 10 then [digitChar n]
    else natCharsAux fuel (n / 10) ++ [digitChar (n % 10)]

/-- Decimal rendering of a natural number, as JavaScript renders a
non-negative integer in a template literal. -/
def natChars (n : Nat) : List Char := natCharsAux (n + 1) n

/-- Decimal digit test used in the file-name disjointness proofs. -/
def isDig (c : Char) : Bool :=
  decide (c ∈ ['0', '1', '2', '3', '4', '5', '6', '7', '8', '9'])

/-! ## MD5 (RFC 1321), as used by `createHash('md5')` in the source -/

/-- 2^32, the word modulus of MD5. -/
def M32 : Nat := 4294967296

/-- Bitwise complement on 32-bit words represented as `Nat < 2^32`. -/
def not32 (x : Nat) : Nat := 4294967295 - x

/-- 32-bit left rotation. -/
def rotl (x c : Nat) : Nat := ((x * 2 ^ c) % M32) ||| (x / 2 ^ (32 - c))

/-- The 64 MD5 sine-derived round constants. -/
def md5K : List Nat :=
  [0xd76aa478, 0xe8c7b756, 0x242070db, 0xc1bdceee,
   0xf57c0faf, 0x4787c62a, 0xa8304613, 0xfd469501,
   0x698098d8, 0x8b44f7af, 0xffff5bb1, 0x895cd7be,
   0x6b901122, 0xfd987193, 0xa679438e, 0x49b40821,
   0xf61e2562, 0xc040b340, 0x265e5a51, 0xe9b6c7aa,
   0xd62f105d, 0x02441453, 0xd8a1e681, 0xe7d3fbc8,
   0x21e1cde6, 0xc33707d6, 0xf4d50d87, 0x455a14ed,
   0xa9e3e905, 0xfcefa3f8, 0x676f02d9, 0x8d2a4c8a,
   0xfffa3942, 0x8771f681, 0x6d9d6122, 0xfde5380c,
   0xa4beea44, 0x4bdecfa9, 0xf6bb4b60, 0xbebfbc70,
   0x289b7ec6, 0xeaa127fa, 0xd4ef3085, 0x04881d05,
   0xd9d4d039, 0xe6db99e5, 0x1fa27cf8, 0xc4ac5665,
   0xf4292244, 0x432aff97, 0xab9423a7, 0xfc93a039,
   0x655b59c3, 0x8f0ccc92, 0xffeff47d, 0x85845dd1,
   0x6fa87e4f, 0xfe2ce6e0, 0xa3014314, 0x4e0811a1,
   0xf7537e82, 0xbd3af235, 0x2ad7d2bb, 0xeb86d391]

/-- The 64 MD5 per-round shift amounts. -/
def md5S : List Nat :=
  [7, 12, 17, 22, 7, 12, 17, 22, 7, 12, 17, 22, 7, 12, 17, 22,
   5, 9, 14, 20, 5, 9, 14, 20, 5, 9, 14, 20, 5, 9, 14, 20,
   4, 11, 16, 23, 4, 11, 16, 23, 4, 11, 16, 23, 4, 11, 16, 23,
   6, 10, 15, 21, 6, 10, 15, 21, 6, 10, 15, 21, 6, 10, 15, 21]

/-- Little-endian 32-bit word `j` of a 64-byte block. -/
def md5Word (block : List Nat) (j : Nat) : Nat :=
  block.getD (4 * j) 0 + 256 * block.getD (4 * j + 1) 0 +
    65536 * block.getD (4 * j + 2) 0 + 16777216 * block.getD (4 * j + 3) 0

/-- One MD5 round (round index `i` from 0 to 63). -/
def md5Round (block : List Nat) (st : Nat × Nat × Nat × Nat) (i : Nat) :
    Nat × Nat × Nat × Nat :=
  let a := st.1
  let b := st.2.1
  let c := st.2.2.1
  let d := st.2.2.2
  let f :=
    if i < 16 then (b &&& c) ||| (not32 b &&& d)
    else if i < 32 then (d &&& b) ||| (not32 d &&& c)
    else if i < 48 then b ^^^ c ^^^ d
    else c ^^^ (b ||| not32 d)
  let g :=
    if i < 16 then i
    else if i < 32 then (5 * i + 1) % 16
    else if i < 48 then (3 * i + 5) % 16
    else (7 * i) % 16
  let f2 := (f + a + md5K.getD i 0 + md5Word block g) % M32
  (d, (b + rotl f2 (md5S.getD i 0)) % M32, b, c)

/-- Process one 64-byte block, updating the four MD5 state words. -/
def md5Block (st : Nat × Nat × Nat × Nat) (block : List Nat) :
    Nat × Nat × Nat × Nat :=
  let r := (List.range 64).foldl (md5Round block) st
  ((st.1 + r.1) % M32, (st.2.1 + r.2.1) % M32,
   (st.2.2.1 + r.2.2.1) % M32, (st.2.2.2 + r.2.2.2) % M32)

/-- Split a byte list into 64-byte blocks (fuel-driven for kernel
evaluation; the fuel is an upper bound on the number of blocks). -/
def chunksOf64 : Nat → List Nat → List (List Nat)
  | 0, _ => []
  | _, [] => []
  | fuel + 1, l => l.take 64 :: chunksOf64 fuel (l.drop 64)

/-- MD5 padding: append `0x80`, zero bytes up to 56 mod 64, then the bit
length as a 64-bit little-endian quantity. -/
def padMd5 (msg : List Nat) : List Nat :=
  let len := msg.length
  let z := (120 - (len + 1) % 64) % 64
  msg ++ [128] ++ List.replicate z 0 ++
    ((List.range 8).map fun k => ((len * 8) / 256 ^ k) % 256)

/-- The four 32-bit state words of the MD5 digest of a byte list. -/
def md5Words (msg : List Nat) : Nat × Nat × Nat × Nat :=
  (chunksOf64 (padMd5 msg).length (padMd5 msg)).foldl md5Block
    (0x67452301, 0xefcdab89, 0x98badcfe, 0x10325476)

/-- Lower-case hexadecimal digit characters. -/
def hexDigit : Nat → Char
  | 0 => '0' | 1 => '1' | 2 => '2' | 3 => '3' | 4 => '4'
  | 5 => '5' | 6 => '6' | 7 => '7' | 8 => '8' | 9 => '9'
  | 10 => 'a' | 11 => 'b' | 12 => 'c' | 13 => 'd' | 14 => 'e'
  | _ => 'f'

/-- Two hex characters of one byte. -/
def byteHex (b : Nat) : List Char := [hexDigit (b / 16), hexDigit (b % 16)]

/-- Hex rendering of a 32-bit word in little-endian byte order (as in the
MD5 digest string). -/
def wordHexLE (w : Nat) : List Char :=
  byteHex (w % 256) ++ byteHex (w / 256 % 256) ++
    byteHex (w / 65536 % 256) ++ byteHex (w / 16777216 % 256)

/-- `createHash('md5').update(bytes).digest('hex')`: the 32-character
lower-case hex digest of a byte list. -/
def md5hex (msg : List Nat) : List Char :=
  let w := md5Words msg
  wordHexLE w.1 ++ wordHexLE w.2.1 ++ wordHexLE w.2.2.1 ++ wordHexLE w.2.2.2

/-- Numeric value of one hexadecimal character (`parseInt(_, 16)` on the
characters that occur in an MD5 digest). -/
def hexVal (c : Char) : Nat :=
  if c = '0' then 0 else if c = '1' then 1 else if c = '2' then 2
  else if c = '3' then 3 else if c = '4' then 4 else if c = '5' then 5
  else if c = '6' then 6 else if c = '7' then 7 else if c = '8' then 8
  else if c = '9' then 9 else if c = 'a' then 10 else if c = 'b' then 11
  else if c = 'c' then 12 else if c = 'd' then 13 else if c = 'e' then 14
  else 15

/-- `parseInt(s, 16)` on a hex string. -/
def parseHex (s : List Char) : Nat := s.foldl (fun a c => 16 * a + hexVal c) 0

/-! ## Data model

File names under `UPLOAD_DIR` are the JavaScript template-literal strings,
modelled as lists of characters.  The byte content fed to MD5 is the list of
character codes (the strings hashed by the source are ASCII). -/

/-- A file name (a JavaScript string). -/
abbrev Name := List Char

/-- Bytes of an ASCII string, as fed to `createHash('md5').update`. -/
def strBytes (s : Name) : List Nat := s.map Char.toNat

/-- The `-chunk-` infix of chunk file names (line 208 of the source). -/
def chunkSep : Name := ['-', 'c', 'h', 'u', 'n', 'k', '-']

/-- The `-metadata.json` suffix of the metadata file name (line 45). -/
def metaSuffix : Name :=
  ['-', 'm', 'e', 't', 'a', 'd', 'a', 't', 'a', '.', 'j', 's', 'o', 'n']

/-- The `-result-` infix of chunk result file names (line 218). -/
def resultSep : Name := ['-', 'r', 'e', 's', 'u', 'l', 't', '-']

/-- The `.json` extension of chunk result file names. -/
def jsonExt : Name := ['.', 'j', 's', 'o', 'n']

/-- `${sessionId}-chunk-${chunkIndex}`. -/
def chunkName (sid : Name) (i : Nat) : Name := sid ++ chunkSep ++ natChars i

/-- `${sessionId}-metadata.json`. -/
def metaName (sid : Name) : Name := sid ++ metaSuffix

/-- `${sessionId}-result-${chunkIndex}.json`. -/
def resultName (sid : Name) (i : Nat) : Name :=
  sid ++ resultSep ++ natChars i ++ jsonExt

/-- The string `${filename}-${fileSize}-${totalChunks}-${Date.now()}` hashed
by `generateSessionId` (line 37 of the source). -/
def sessionData (filename : Name) (fileSize totalChunks now : Nat) : Name :=
  filename ++ ['-'] ++ natChars fileSize ++ ['-'] ++ natChars totalChunks ++
    ['-'] ++ natChars now

/-- `generateSessionId(filename, fileSize, totalChunks)` — the MD5 hex digest
of the data string, which includes `Date.now()` (modelled as the `now`
argument). -/
def generateSessionId (filename : Name) (fileSize totalChunks now : Nat) :
    Name :=
  md5hex (strBytes (sessionData filename fileSize totalChunks now))

/-- The models named in `processChunk` ('BG-Model-N', 'CM-Model-N',
'TM-Model-N'). -/
inductive Model where
  | bg | cm | tm
deriving DecidableEq

/-- Per-chunk and aggregate verdicts. -/
inductive Pred where
  | fake | real
deriving DecidableEq

/-- One entry of the `${sessionId}-metadata.json` object: `{size, hash,
timestamp}` (lines 52–56). -/
structure MetaEntry where
  size : Nat
  hash : Name
  timestamp : Nat
deriving DecidableEq

/-- The metadata object, keyed by chunk index.  JavaScript objects enumerate
integer-like keys in ascending numeric order, so the object is modelled as an
association list sorted by key. -/
abbrev MetaMap := List (Nat × MetaEntry)

/-- `metadata[chunkIndex] = {...}`: insert or overwrite a key, keeping the
ascending key order of a JavaScript object with integer-like keys. -/
def insertMeta : MetaMap → Nat → MetaEntry → MetaMap
  | [], i, e => [(i, e)]
  | (j, e') :: rest, i, e =>
    if i < j then (i, e) :: (j, e') :: rest
    else if i = j then (i, e) :: rest
    else (j, e') :: insertMeta rest i e

/-- Lookup of a key in the metadata object. -/
def metaLookup : MetaMap → Nat → Option MetaEntry
  | [], _ => none
  | (j, e) :: rest, i => if i = j then some e else metaLookup rest i

/-- `Math.round` on the non-negative rationals produced by the source:
`⌊x + 1/2⌋`, then scaled back.  `round4 x = Math.round(x * 10000) / 10000`. -/
def round4 (x : ℚ) : ℚ := (round (x * 10000) : ℤ) / 10000

/-- `Math.round(x * 100) / 100`. -/
def round2 (x : ℚ) : ℚ := (round (x * 100) : ℤ) / 100

/-- The result record written by `processChunk` (lines 91–102). -/
structure ChunkResult where
  chunkIndex : Nat
  sessionId : Name
  prediction : Pred
  confidence : ℚ
  modelsUsed : List Model
  chunkSize : Nat
  estimatedFrames : Nat
  processingTime : ℚ
  hash : Name
  timestamp : Nat
deriving DecidableEq

/-- Majority consensus tag of the aggregate (`'fake_majority'` /
`'real_majority'`, line 162). -/
inductive Consensus where
  | fakeMajority | realMajority
deriving DecidableEq

/-- One row of `chunk_breakdown` (lines 133–140).  The `size` field of the
source is the string `(chunkSize/1MiB).toFixed(2) + 'MB'`; its numeric value
is modelled with `round2`. -/
structure BreakdownEntry where
  chunkIndex : Nat
  prediction : Pred
  confidence : ℚ
  sizeMB : ℚ
  models : List Model
  frames : Nat
deriving DecidableEq

/-- The aggregate returned by `aggregateChunkResults` (lines 142–172), with
its nested `chunked_analysis` and `analysis` objects flattened.  The source's
ISO `timestamp` string is modelled by the numeric time `now` of the request
that aggregates. -/
structure AggregateResult where
  prediction : Pred
  confidence : ℚ
  models_used : List Model
  processing_time : ℚ
  total_chunks : Nat
  chunks_fake : Nat
  chunks_real : Nat
  chunk_breakdown : List BreakdownEntry
  file_size_mb : ℚ
  raw_confidence : ℚ
  chunk_consensus : Consensus
  consistency_score : ℚ
  frames_analyzed : Nat
  filename : Name
  file_size : Nat
  timestamp : Nat
deriving DecidableEq

/-- Typed content of a file under `UPLOAD_DIR`. -/
inductive FileData where
  | chunk (bytes : List Nat)
  | meta (m : MetaMap)
  | result (r : ChunkResult)
deriving DecidableEq

/-- The durable file store (`/tmp/chunked-uploads`). -/
abbrev Store := Name → Option FileData

/-- The empty upload directory. -/
def emptyStore : Store := fun _ => none

/-- `fs.writeFileSync`: update the store at one file name. -/
def updStore (s : Store) (n : Name) (v : FileData) : Store :=
  fun m => if m = n then some v else s m

/-- Read and JSON-parse the metadata file of a session, defaulting to the
empty object when the file does not exist (lines 46–50). -/
def readMeta (s : Store) (sid : Name) : MetaMap :=
  match s (metaName sid) with
  | some (.meta m) => m
  | _ => []

/-! ## The operations of `src/api/upload-chunked.js` -/

/-- `storeChunkMetadata(sessionId, chunkIndex, chunkData)` (lines 44–60):
read the metadata file (or start from `{}`), record `{size, hash, timestamp}`
under the chunk index, write the file back, and return the updated object. -/
def storeChunkMetadata (s : Store) (sid : Name) (chunkIndex : Nat)
    (chunkData : List Nat) (now : Nat) : MetaMap × Store :=
  let metadata := insertMeta (readMeta s sid) chunkIndex
    ⟨chunkData.length, md5hex chunkData, now⟩
  (metadata, updStore s (metaName sid) (.meta metadata))

/-- `[...new Set(l)]`: deduplicate keeping first occurrences. -/
def dedup (l : List Model) : List Model :=
  l.foldl (fun acc x => if x ∈ acc then acc else acc ++ [x]) []

/-- `processChunk(chunkBuffer, chunkIndex, sessionId)` (lines 65–103).  The
`Math.random()` summand of `processingTime` is the explicit argument `rand`;
`Date.now()` is the argument `now`.  Everything else is a deterministic
function of the chunk bytes. -/
def processChunk (chunkBuffer : List Nat) (chunkIndex : Nat) (sid : Name)
    (now : Nat) (rand : ℚ) : ChunkResult :=
  let hashHex := md5hex chunkBuffer
  let hashInt := parseHex (hashHex.take 8)
  let chunkSize := chunkBuffer.length
  let confidence : ℚ :=
    max (1 / 10) (min (9 / 10) (((hashInt % 1000 : Nat) : ℚ) / 1000))
  { chunkIndex := chunkIndex
    sessionId := sid
    prediction := if confidence > 1 / 2 then Pred.fake else Pred.real
    confidence := round4 confidence
    modelsUsed := [Model.bg] ++
      (if chunkSize < 2097152 then [Model.cm] else []) ++
      (if hashInt % 3 = 0 then [Model.tm] else [])
    chunkSize := chunkSize
    estimatedFrames := chunkSize / 51200
    processingTime := 1 / 2 + rand
    hash := hashHex.take 8
    timestamp := now }

/-- The `weightedConfidence` accumulator of `aggregateChunkResults`
(lines 114–121). -/
def weightedConfidence (chunkResults : List ChunkResult)
    (totalFileSize : Nat) : ℚ :=
  chunkResults.foldl
    (fun acc c => acc + c.confidence * ((c.chunkSize : ℚ) / (totalFileSize : ℚ))) 0

/-- The `totalWeight` accumulator of `aggregateChunkResults`
(lines 114–121). -/
def totalWeight (chunkResults : List ChunkResult) (totalFileSize : Nat) : ℚ :=
  chunkResults.foldl
    (fun acc c => acc + ((c.chunkSize : ℚ) / (totalFileSize : ℚ))) 0

/-- `aggregateChunkResults(chunkResults, totalFileSize, filename)`
(lines 108–173). -/
def aggregateChunkResults (chunkResults : List ChunkResult)
    (totalFileSize : Nat) (filename : Name) (now : Nat) : AggregateResult :=
  let totalChunks := chunkResults.length
  let fakeChunks :=
    (chunkResults.filter fun r => r.prediction = Pred.fake).length
  let realChunks := totalChunks - fakeChunks
  let finalConfidence :=
    weightedConfidence chunkResults totalFileSize /
      totalWeight chunkResults totalFileSize
  { prediction := if finalConfidence > 1 / 2 then Pred.fake else Pred.real
    confidence := round4 finalConfidence
    models_used := dedup (chunkResults.map (fun r => r.modelsUsed)).flatten
    processing_time :=
      round2 (chunkResults.foldl (fun acc r => acc + r.processingTime) 0)
    total_chunks := totalChunks
    chunks_fake := fakeChunks
    chunks_real := realChunks
    chunk_breakdown := chunkResults.map fun c =>
      { chunkIndex := c.chunkIndex
        prediction := c.prediction
        confidence := c.confidence
        sizeMB := round2 ((c.chunkSize : ℚ) / 1048576)
        models := c.modelsUsed
        frames := c.estimatedFrames }
    file_size_mb := round2 ((totalFileSize : ℚ) / 1048576)
    raw_confidence := finalConfidence
    chunk_consensus :=
      if fakeChunks > realChunks then Consensus.fakeMajority
      else Consensus.realMajority
    consistency_score := ((max fakeChunks realChunks : Nat) : ℚ) / (totalChunks : ℚ)
    frames_analyzed :=
      chunkResults.foldl (fun acc r => acc + r.estimatedFrames) 0
    filename := filename
    file_size := totalFileSize
    timestamp := now }

/-- Insertion step for the sort by chunk index. -/
def insertByIndex (c : ChunkResult) : List ChunkResult → List ChunkResult
  | [] => [c]
  | d :: rest =>
    if c.chunkIndex ≤ d.chunkIndex then c :: d :: rest
    else d :: insertByIndex c rest

/-- `chunkResults.sort((a, b) => a.chunkIndex - b.chunkIndex)` (line 244).
The loaded results have pairwise distinct indices, for which any comparison
sort computes the same list; insertion sort is used here. -/
def sortByIndex (l : List ChunkResult) : List ChunkResult :=
  l.foldr insertByIndex []

/-- The JSON bodies the handler can send.  `noChunk` is the 400 response of
line 201, `tooLarge` the 500 response produced when formidable's
`maxFileSize` (100 MB, line 185) aborts the parse, `partialResp` the
partial-progress 200 response of lines 276–288 and `completedResp` the final
200 response of lines 266–273. -/
inductive Response where
  | noChunk
  | tooLarge
  | partialResp (sessionId : Name) (chunkIndex totalChunks receivedChunks : Nat)
      (prediction : Pred) (confidence processingTime : ℚ)
  | completedResp (sessionId : Name) (chunkIndex totalChunks : Nat)
      (result : AggregateResult)
deriving DecidableEq

/-- Result of one handler invocation: the response, the file store after the
request, and how many times the per-chunk analyzer (`processChunk`) ran. -/
structure HandlerOut where
  resp : Response
  store : Store
  analyzerCalls : Nat

/-- `handler(req, res)` (lines 175–298) on a POST request, after form
parsing.  The form fields arrive as `chunkIndex`, `totalChunks`, `filename`,
`fileSize`, optional `sessionId`, and the optional uploaded chunk file;
`now` is `Date.now()` and `rand` the `Math.random()` draw of
`processChunk`.  The deferred 5-minute cleanup (lines 250–264) runs outside
the request and does not alter the returned store. -/
def handler (sidOpt : Option Name) (chunkIndex totalChunks : Nat)
    (filename : Name) (fileSize : Nat) (chunkOpt : Option (List Nat))
    (now : Nat) (rand : ℚ) (store : Store) : HandlerOut :=
  let sid := sidOpt.getD (generateSessionId filename fileSize totalChunks now)
  match chunkOpt with
  | none => ⟨.noChunk, store, 0⟩
  | some chunkBuffer =>
    if chunkBuffer.length > 104857600 then ⟨.tooLarge, store, 0⟩
    else
      let store1 := updStore store (chunkName sid chunkIndex) (.chunk chunkBuffer)
      let ms := storeChunkMetadata store1 sid chunkIndex chunkBuffer now
      let chunkResult := processChunk chunkBuffer chunkIndex sid now rand
      let store3 := updStore ms.2 (resultName sid chunkIndex) (.result chunkResult)
      let receivedChunks := ms.1.length
      if chunkIndex + 1 = totalChunks ∧ receivedChunks = totalChunks then
        let chunkResults := (List.range totalChunks).filterMap fun j =>
          match store3 (resultName sid j) with
          | some (.result r) => some r
          | _ => none
        let finalResult :=
          aggregateChunkResults (sortByIndex chunkResults) fileSize filename now
        ⟨.completedResp sid chunkIndex totalChunks finalResult, store3, 1⟩
      else
        ⟨.partialResp sid chunkIndex totalChunks receivedChunks
          chunkResult.prediction chunkResult.confidence
          chunkResult.processingTime, store3, 1⟩

/-- Run a sequence of chunk uploads for one session, in the given index
order, collecting the responses (each request is one invocation of the
stateless handler against the shared store). -/
def runUploads (sid : Name) (totalChunks fileSize : Nat) (filename : Name)
    (bytesOf : Nat → List Nat) (orders : List Nat) (store : Store) :
    List Response × Store :=
  orders.foldl
    (fun acc i =>
      let out := handler (some sid) i totalChunks filename fileSize
        (some (bytesOf i)) 0 0 acc.2
      (acc.1 ++ [out.resp], out.store))
    ([], store)

/-- Whether a response is the final-aggregate response. -/
def isCompleted : Response → Bool
  | .completedResp _ _ _ _ => true
  | _ => false

/-- Whether a response rejects the request without processing the chunk. -/
def isRejected : Response → Bool
  | .noChunk => true
  | .tooLarge => true
  | _ => false

/-- Number of responses that carry a final aggregate. -/
def countCompleted (rs : List Response) : Nat := (rs.filter isCompleted).length

/-- The session id reported in a success response. -/
def respSessionId : Response → Option Name
  | .partialResp sid _ _ _ _ _ _ => some sid
  | .completedResp sid _ _ _ => some sid
  | _ => none

/-- The `receivedChunks` count of a partial-progress response. -/
def respReceived : Response → Option Nat
  | .partialResp _ _ _ r _ _ _ => some r
  | _ => none

/-- The per-chunk confidence reported in a partial-progress response. -/
def respConfidence : Response → Option ℚ
  | .partialResp _ _ _ _ _ c _ => some c
  | _ => none

/-- The aggregate carried by a final response. -/
def respResult : Response → Option AggregateResult
  | .completedResp _ _ _ r => some r
  | _ => none

/-! ## The weighted-aggregation formula of the specification

Modelled from the spec: `weight(chunk) = chunk.sizeBytes / totalSize` and
`finalConfidence = Σ(chunk.confidence × weight(chunk))`, normalized by
`Σweight`. -/

/-- The specification's final confidence: the size-weighted sum of the chunk
confidences divided by the sum of the weights. -/
def specFinalConfidence (chunkResults : List ChunkResult)
    (totalSize : Nat) : ℚ :=
  (chunkResults.map fun c =>
      c.confidence * ((c.chunkSize : ℚ) / (totalSize : ℚ))).sum /
    (chunkResults.map fun c => (c.chunkSize : ℚ) / (totalSize : ℚ)).sum

/-! ## Concrete data used to instantiate the claims -/

/-- A chunk result with confidence 0.2 and size 1 MiB (the first chunk of
the spec's worked example for C4). -/
def c4chunkA : ChunkResult :=
  { chunkIndex := 0
    sessionId := ['s']
    prediction := Pred.real
    confidence := 1 / 5
    modelsUsed := [Model.bg]
    chunkSize := 1048576
    estimatedFrames := 20
    processingTime := 1
    hash := []
    timestamp := 0 }

/-- A chunk result with confidence 0.8 and size 3 MiB (the second chunk of
the spec's worked example for C4). -/
def c4chunkB : ChunkResult :=
  { chunkIndex := 1
    sessionId := ['s']
    prediction := Pred.fake
    confidence := 4 / 5
    modelsUsed := [Model.bg]
    chunkSize := 3145728
    estimatedFrames := 61
    processingTime := 1
    hash := []
    timestamp := 0 }

/-- A chunk result with confidence 0.5 and size 50 bytes, used to
instantiate the aggregate part of C10. -/
def c10chunk : ChunkResult :=
  { chunkIndex := 0
    sessionId := ['s']
    prediction := Pred.real
    confidence := 1 / 2
    modelsUsed := [Model.bg]
    chunkSize := 50
    estimatedFrames := 0
    processingTime := 1
    hash := []
    timestamp := 0 }

/-! ## Arithmetic lemmas about the aggregation -/

theorem foldl_add_eq_sum {α : Type} (f : α → ℚ) :
    ∀ (l : List α) (a : ℚ),
      l.foldl (fun acc x => acc + f x) a = a + (l.map f).sum := by
  intro l
  induction l with
  | nil => intro a; simp
  | cons x xs ih =>
    intro a
    simp only [List.foldl_cons, List.map_cons, List.sum_cons, ih, add_assoc]

theorem weightedConfidence_eq_sum (chunkResults : List ChunkResult)
    (totalFileSize : Nat) :
    weightedConfidence chunkResults totalFileSize =
      (chunkResults.map fun c =>
        c.confidence * ((c.chunkSize : ℚ) / (totalFileSize : ℚ))).sum := by
  unfold weightedConfidence
  rw [foldl_add_eq_sum, zero_add]

theorem totalWeight_eq_sum (chunkResults : List ChunkResult)
    (totalFileSize : Nat) :
    totalWeight chunkResults totalFileSize =
      (chunkResults.map fun c =>
        (c.chunkSize : ℚ) / (totalFileSize : ℚ)).sum := by
  unfold totalWeight
  rw [foldl_add_eq_sum, zero_add]

theorem raw_confidence_eq_spec (chunkResults : List ChunkResult)
    (totalFileSize : Nat) (filename : Name) (now : Nat) :
    (aggregateChunkResults chunkResults totalFileSize filename now).raw_confidence
      = specFinalConfidence chunkResults totalFileSize := by
  show weightedConfidence chunkResults totalFileSize /
      totalWeight chunkResults totalFileSize = _
  rw [weightedConfidence_eq_sum, totalWeight_eq_sum, specFinalConfidence]

/-- `Math.round(x*10000)/10000` stays inside `[1/10, 9/10]`. -/
theorem round4_bounds {x : ℚ} (h1 : 1 / 10 ≤ x) (h2 : x ≤ 9 / 10) :
    1 / 10 ≤ round4 x ∧ round4 x ≤ 9 / 10 := by
  have hl : (1000 : ℤ) ≤ round (x * 10000) := by
    rw [round_eq, Int.le_floor]
    push_cast
    linarith
  have hu : round (x * 10000) ≤ 9000 := by
    rw [round_eq]
    have hf : ((⌊x * 10000 + 1 / 2⌋ : ℤ) : ℚ) ≤ x * 10000 + 1 / 2 :=
      Int.floor_le _
    by_contra hc
    push_neg at hc
    have : ((9001 : ℤ) : ℚ) ≤ ((⌊x * 10000 + 1 / 2⌋ : ℤ) : ℚ) := by
      exact_mod_cast hc
    push_cast at this
    linarith
  have hlq : (1000 : ℚ) ≤ ((round (x * 10000) : ℤ) : ℚ) := by exact_mod_cast hl
  have huq : ((round (x * 10000) : ℤ) : ℚ) ≤ 9000 := by exact_mod_cast hu
  unfold round4
  constructor <;> linarith

/-- Pointwise bounds on the chunk confidences give the same bounds on the
normalized weighted confidence. -/
theorem specFinalConfidence_bounds (chunkResults : List ChunkResult)
    (totalSize : Nat)
    (hc : ∀ c ∈ chunkResults,
      1 / 10 ≤ c.confidence ∧ c.confidence ≤ 9 / 10)
    (hT : 0 < totalWeight chunkResults totalSize) :
    1 / 10 ≤ specFinalConfidence chunkResults totalSize ∧
      specFinalConfidence chunkResults totalSize ≤ 9 / 10 := by
  have hw : ∀ c : ChunkResult, (0 : ℚ) ≤ (c.chunkSize : ℚ) / (totalSize : ℚ) :=
    fun c => div_nonneg (Nat.cast_nonneg _) (Nat.cast_nonneg _)
  rw [totalWeight_eq_sum] at hT
  have hlow :
      (1 / 10 : ℚ) *
        (chunkResults.map fun c => (c.chunkSize : ℚ) / (totalSize : ℚ)).sum ≤
      (chunkResults.map fun c =>
        c.confidence * ((c.chunkSize : ℚ) / (totalSize : ℚ))).sum := by
    rw [← List.sum_map_mul_left]
    apply List.sum_le_sum
    intro c hmem
    exact mul_le_mul_of_nonneg_right (hc c hmem).1 (hw c)
  have hhigh :
      (chunkResults.map fun c =>
        c.confidence * ((c.chunkSize : ℚ) / (totalSize : ℚ))).sum ≤
      (9 / 10 : ℚ) *
        (chunkResults.map fun c => (c.chunkSize : ℚ) / (totalSize : ℚ)).sum := by
    rw [← List.sum_map_mul_left]
    apply List.sum_le_sum
    intro c hmem
    exact mul_le_mul_of_nonneg_right (hc c hmem).2 (hw c)
  unfold specFinalConfidence
  constructor
  · rw [le_div_iff₀ hT]
    linarith
  · rw [div_le_iff₀ hT]
    linarith

/-! ## Claim C4 — weighted aggregation formula and the 1 MiB/3 MiB instance -/

/-- Claim C4: the aggregate confidence is the sum over chunks of
`confidence × (chunkSize / totalFileSize)` normalized by the sum of the
weights (the reported value being that quantity rounded to 4 decimal
places, which is exact here), and on two chunks of sizes 1 MiB and 3 MiB
with confidences 0.2 and 0.8 over a 4 MiB file the aggregate confidence is
0.65 and the prediction is `fake`. -/
theorem weighted_aggregation_c4 :
    (∀ (chunks : List ChunkResult) (fs : Nat) (f : Name) (now : Nat),
      (aggregateChunkResults chunks fs f now).raw_confidence =
          specFinalConfidence chunks fs ∧
        (aggregateChunkResults chunks fs f now).confidence =
          round4 (specFinalConfidence chunks fs)) ∧
    (aggregateChunkResults [c4chunkA, c4chunkB] 4194304 ['v'] 0).confidence
        = 13 / 20 ∧
      (aggregateChunkResults [c4chunkA, c4chunkB] 4194304 ['v'] 0).prediction
        = Pred.fake := by
  have hgen : ∀ (chunks : List ChunkResult) (fs : Nat) (f : Name) (now : Nat),
      (aggregateChunkResults chunks fs f now).raw_confidence =
          specFinalConfidence chunks fs ∧
        (aggregateChunkResults chunks fs f now).confidence =
          round4 (specFinalConfidence chunks fs) := by
    intro chunks fs f now
    refine ⟨raw_confidence_eq_spec chunks fs f now, ?_⟩
    show round4 (weightedConfidence chunks fs / totalWeight chunks fs) = _
    rw [weightedConfidence_eq_sum, totalWeight_eq_sum, specFinalConfidence]
  have hconf :
      weightedConfidence [c4chunkA, c4chunkB] 4194304 /
        totalWeight [c4chunkA, c4chunkB] 4194304 = 13 / 20 := by
    norm_num [weightedConfidence, totalWeight, c4chunkA, c4chunkB]
  refine ⟨hgen, ?_, ?_⟩
  · show round4 (weightedConfidence [c4chunkA, c4chunkB] 4194304 /
      totalWeight [c4chunkA, c4chunkB] 4194304) = 13 / 20
    rw [hconf]
    norm_num [round4, round_eq]
  · show (if (weightedConfidence [c4chunkA, c4chunkB] 4194304 /
        totalWeight [c4chunkA, c4chunkB] 4194304) > 1 / 2
        then Pred.fake else Pred.real) = Pred.fake
    rw [hconf, if_pos (by norm_num)]

/-! ## Claim C10 — per-chunk and aggregate confidence bounds -/

/-- Claim C10: every per-chunk confidence produced by `processChunk` lies in
`[0.1, 0.9]`, and every aggregate confidence computed from chunks whose
confidences lie in `[0.1, 0.9]` (with a positive total weight, i.e. some
chunk bytes and a nonzero declared file size) again lies in `[0.1, 0.9]` —
in particular it is never exactly 0 or 1. -/
theorem confidence_bounds_c10 :
    (∀ (bytes : List Nat) (i : Nat) (sid : Name) (now : Nat) (rand : ℚ),
      1 / 10 ≤ (processChunk bytes i sid now rand).confidence ∧
        (processChunk bytes i sid now rand).confidence ≤ 9 / 10) ∧
    (∀ (chunks : List ChunkResult) (fs : Nat) (f : Name) (now : Nat),
      (∀ c ∈ chunks, 1 / 10 ≤ c.confidence ∧ c.confidence ≤ 9 / 10) →
      0 < totalWeight chunks fs →
      1 / 10 ≤ (aggregateChunkResults chunks fs f now).confidence ∧
        (aggregateChunkResults chunks fs f now).confidence ≤ 9 / 10) := by
  constructor
  · intro bytes i sid now rand
    show 1 / 10 ≤ round4 (max (1 / 10) _) ∧ round4 (max (1 / 10) _) ≤ 9 / 10
    exact round4_bounds (le_max_left _ _)
      (max_le (by norm_num) (min_le_left _ _))
  · intro chunks fs f now hc hT
    have hb := specFinalConfidence_bounds chunks fs hc hT
    have hraw :
        (aggregateChunkResults chunks fs f now).confidence =
          round4 (specFinalConfidence chunks fs) := by
      show round4 (weightedConfidence chunks fs / totalWeight chunks fs) = _
      rw [weightedConfidence_eq_sum, totalWeight_eq_sum, specFinalConfidence]
    rw [hraw]
    exact round4_bounds hb.1 hb.2

/-- Witness for C10 at a concrete chunk and a concrete one-chunk session. -/
theorem confidence_bounds_c10_witness :
    (1 / 10 ≤ (processChunk [5] 0 ['s'] 0 0).confidence ∧
      (processChunk [5] 0 ['s'] 0 0).confidence ≤ 9 / 10) ∧
    (1 / 10 ≤ (aggregateChunkResults [c10chunk] 100 ['f'] 0).confidence ∧
      (aggregateChunkResults [c10chunk] 100 ['f'] 0).confidence ≤ 9 / 10) :=
  ⟨confidence_bounds_c10.1 [5] 0 ['s'] 0 0,
   confidence_bounds_c10.2 [c10chunk] 100 ['f'] 0
     (by
       intro c hcm
       rw [List.mem_singleton] at hcm
       subst hcm
       exact ⟨by norm_num [c10chunk], by norm_num [c10chunk]⟩)
     (by norm_num [totalWeight, c10chunk])⟩

/-! ## Disjointness of the per-session file names

The handler writes only the three files `${sid}-chunk-${i}`,
`${sid}-metadata.json` and `${sid}-result-${i}.json` of its own session.
These lemmas show that names of different kinds never coincide, and that
names of the same kind coincide only for the same session id. -/

theorem digitChar_isDig : ∀ d, d < 10 → isDig (digitChar d) = true := by decide

theorem natCharsAux_digits :
    ∀ (fuel n : Nat), ∀ c ∈ natCharsAux fuel n, isDig c = true := by
  intro fuel
  induction fuel with
  | zero => intro n c hc; simp [natCharsAux] at hc
  | succ fuel ih =>
    intro n c hc
    unfold natCharsAux at hc
    by_cases h : n < 10
    · rw [if_pos h, List.mem_singleton] at hc
      subst hc
      exact digitChar_isDig n h
    · rw [if_neg h, List.mem_append] at hc
      rcases hc with hc | hc
      · exact ih _ c hc
      · rw [List.mem_singleton] at hc
        subst hc
        exact digitChar_isDig _ (Nat.mod_lt n (by norm_num))

theorem natChars_digits (n : Nat) : ∀ c ∈ natChars n, isDig c = true :=
  natCharsAux_digits _ n

theorem natCharsAux_ne_nil (fuel n : Nat) : natCharsAux (fuel + 1) n ≠ [] := by
  unfold natCharsAux
  by_cases h : n < 10
  · rw [if_pos h]; simp
  · rw [if_neg h]; simp

theorem natChars_ne_nil (n : Nat) : natChars n ≠ [] := natCharsAux_ne_nil n n

theorem takeWhile_append_all (p : Char → Bool) :
    ∀ (l r : List Char), (∀ c ∈ l, p c = true) →
      (l ++ r).takeWhile p = l ++ r.takeWhile p := by
  intro l
  induction l with
  | nil => intro r _; rfl
  | cons x xs ih =>
    intro r h
    rw [List.cons_append, List.takeWhile_cons,
      if_pos (h x (List.mem_cons_self x xs)),
      ih r (fun c hc => h c (List.mem_cons_of_mem x hc)), List.cons_append]

theorem dropWhile_append_all (p : Char → Bool) :
    ∀ (l r : List Char), (∀ c ∈ l, p c = true) →
      (l ++ r).dropWhile p = r.dropWhile p := by
  intro l
  induction l with
  | nil => intro r _; rfl
  | cons x xs ih =>
    intro r h
    rw [List.cons_append, List.dropWhile_cons,
      if_pos (h x (List.mem_cons_self x xs)),
      ih r (fun c hc => h c (List.mem_cons_of_mem x hc))]

/-- Two all-digit prefixes followed by a `'-'` boundary can be cancelled. -/
theorem digits_dash_inj (d₁ d₂ t₁ t₂ : List Char)
    (h₁ : ∀ c ∈ d₁, isDig c = true) (h₂ : ∀ c ∈ d₂, isDig c = true)
    (heq : d₁ ++ '-' :: t₁ = d₂ ++ '-' :: t₂) : d₁ = d₂ ∧ t₁ = t₂ := by
  have hdash : isDig '-' = false := by decide
  have htake := congrArg (List.takeWhile isDig) heq
  rw [takeWhile_append_all isDig d₁ ('-' :: t₁) h₁,
    takeWhile_append_all isDig d₂ ('-' :: t₂) h₂] at htake
  simp only [List.takeWhile_cons, hdash] at htake
  simp only [Bool.false_eq_true, if_false, List.append_nil] at htake
  have hdrop := congrArg (List.dropWhile isDig) heq
  rw [dropWhile_append_all isDig d₁ ('-' :: t₁) h₁,
    dropWhile_append_all isDig d₂ ('-' :: t₂) h₂] at hdrop
  simp only [List.dropWhile_cons, hdash, Bool.false_eq_true, if_false,
    List.cons.injEq, true_and] at hdrop
  exact ⟨htake, hdrop⟩

theorem chunkName_rev (sid : Name) (i : Nat) :
    (chunkName sid i).reverse =
      (natChars i).reverse ++
        '-' :: 'k' :: 'n' :: 'u' :: 'h' :: 'c' :: '-' :: sid.reverse := by
  unfold chunkName
  rw [List.reverse_append, List.reverse_append]
  rfl

theorem metaName_rev (sid : Name) :
    (metaName sid).reverse =
      'n' :: 'o' :: 's' :: 'j' :: '.' :: 'a' :: 't' :: 'a' :: 'd' :: 'a' ::
        't' :: 'e' :: 'm' :: '-' :: sid.reverse := by
  unfold metaName
  rw [List.reverse_append]
  rfl

theorem resultName_rev (sid : Name) (i : Nat) :
    (resultName sid i).reverse =
      'n' :: 'o' :: 's' :: 'j' :: '.' ::
        ((natChars i).reverse ++
          '-' :: 't' :: 'l' :: 'u' :: 's' :: 'e' :: 'r' :: '-' :: sid.reverse) := by
  unfold resultName
  rw [List.reverse_append, List.reverse_append, List.reverse_append]
  rfl

theorem metaName_inj {A B : Name} (h : metaName A = metaName B) : A = B := by
  have hrev := congrArg List.reverse h
  rw [metaName_rev, metaName_rev] at hrev
  simp only [List.cons.injEq, true_and] at hrev
  exact List.reverse_injective hrev

theorem chunkName_inj {A B : Name} {i j : Nat}
    (h : chunkName A i = chunkName B j) : A = B := by
  have hrev := congrArg List.reverse h
  rw [chunkName_rev, chunkName_rev] at hrev
  have hdd := digits_dash_inj _ _ _ _
    (fun c hc => natChars_digits i c (List.mem_reverse.mp hc))
    (fun c hc => natChars_digits j c (List.mem_reverse.mp hc)) hrev
  have htail := hdd.2
  simp only [List.cons.injEq, true_and] at htail
  exact List.reverse_injective htail

theorem resultName_inj {A B : Name} {i j : Nat}
    (h : resultName A i = resultName B j) : A = B := by
  have hrev := congrArg List.reverse h
  rw [resultName_rev, resultName_rev] at hrev
  simp only [List.cons.injEq, true_and] at hrev
  have hdd := digits_dash_inj _ _ _ _
    (fun c hc => natChars_digits i c (List.mem_reverse.mp hc))
    (fun c hc => natChars_digits j c (List.mem_reverse.mp hc)) hrev
  have htail := hdd.2
  simp only [List.cons.injEq, true_and] at htail
  exact List.reverse_injective htail

theorem metaName_ne_chunkName (A B : Name) (j : Nat) :
    metaName A ≠ chunkName B j := by
  intro h
  have hrev := congrArg List.reverse h
  rw [metaName_rev, chunkName_rev] at hrev
  obtain ⟨c, t, hct⟩ := List.exists_cons_of_ne_nil
    (fun hnil => natChars_ne_nil j (List.reverse_eq_nil_iff.mp hnil))
  rw [hct, List.cons_append, List.cons.injEq] at hrev
  have hcdig : isDig c = true := by
    apply natChars_digits j
    rw [← List.mem_reverse, hct]
    exact List.mem_cons_self c t
  rw [← hrev.1] at hcdig
  simp [isDig] at hcdig

theorem chunkName_ne_resultName (A B : Name) (i j : Nat) :
    chunkName A i ≠ resultName B j := by
  intro h
  have hrev := congrArg List.reverse h
  rw [chunkName_rev, resultName_rev] at hrev
  obtain ⟨c, t, hct⟩ := List.exists_cons_of_ne_nil
    (fun hnil => natChars_ne_nil i (List.reverse_eq_nil_iff.mp hnil))
  rw [hct, List.cons_append, List.cons.injEq] at hrev
  have hcdig : isDig c = true := by
    apply natChars_digits i
    rw [← List.mem_reverse, hct]
    exact List.mem_cons_self c t
  rw [hrev.1] at hcdig
  simp [isDig] at hcdig

theorem metaName_ne_resultName (A B : Name) (j : Nat) :
    metaName A ≠ resultName B j := by
  intro h
  have hrev := congrArg List.reverse h
  rw [metaName_rev, resultName_rev] at hrev
  simp only [List.cons.injEq, true_and] at hrev
  obtain ⟨c, t, hct⟩ := List.exists_cons_of_ne_nil
    (fun hnil => natChars_ne_nil j (List.reverse_eq_nil_iff.mp hnil))
  rw [hct, List.cons_append, List.cons.injEq] at hrev
  have hcdig : isDig c = true := by
    apply natChars_digits j
    rw [← List.mem_reverse, hct]
    exact List.mem_cons_self c t
  rw [← hrev.1] at hcdig
  simp [isDig] at hcdig

/-! ## The handler writes only its own session's files -/

theorem updStore_ne {s : Store} {n : Name} {v : FileData} {m : Name}
    (h : m ≠ n) : updStore s n v m = s m := by
  unfold updStore
  rw [if_neg h]

/-- Any file name different from the three files of the request's session is
untouched by the handler. -/
theorem handler_frame (A : Name) (i N : Nat) (f : Name) (fs : Nat)
    (chunkOpt : Option (List Nat)) (now : Nat) (r : ℚ) (store : Store)
    (name : Name) (h1 : name ≠ chunkName A i) (h2 : name ≠ metaName A)
    (h3 : name ≠ resultName A i) :
    (handler (some A) i N f fs chunkOpt now r store).store name =
      store name := by
  cases chunkOpt with
  | none => rfl
  | some bytes =>
    unfold handler
    dsimp only
    by_cases hb : bytes.length > 104857600
    · rw [if_pos hb]
    · rw [if_neg hb]
      simp only [storeChunkMetadata, Option.getD_some]
      split
      · exact
          (updStore_ne h3).trans ((updStore_ne h2).trans (updStore_ne h1))
      · exact
          (updStore_ne h3).trans ((updStore_ne h2).trans (updStore_ne h1))

/-! ## Claim C9 — isolation between sessions -/

/-- Claim C9: a chunk upload for session `A` never changes the state of a
different session `B`: `B`'s metadata file (hence its received-chunk
count), each of `B`'s stored chunk files, and each of `B`'s stored
per-chunk result files are exactly as before the request. -/
theorem session_isolation_c9 (A B : Name) (hAB : A ≠ B) (i N : Nat)
    (f : Name) (fs : Nat) (chunkOpt : Option (List Nat)) (now : Nat) (r : ℚ)
    (store : Store) :
    (handler (some A) i N f fs chunkOpt now r store).store (metaName B) =
        store (metaName B) ∧
      readMeta (handler (some A) i N f fs chunkOpt now r store).store B =
        readMeta store B ∧
      (∀ j, (handler (some A) i N f fs chunkOpt now r store).store
          (chunkName B j) = store (chunkName B j)) ∧
      (∀ j, (handler (some A) i N f fs chunkOpt now r store).store
          (resultName B j) = store (resultName B j)) := by
  have hmeta := handler_frame A i N f fs chunkOpt now r store (metaName B)
    (metaName_ne_chunkName B A i)
    (fun h => hAB (metaName_inj h).symm)
    (metaName_ne_resultName B A i)
  refine ⟨hmeta, ?_, ?_, ?_⟩
  · unfold readMeta
    rw [hmeta]
  · intro j
    exact handler_frame A i N f fs chunkOpt now r store (chunkName B j)
      (fun h => hAB (chunkName_inj h).symm)
      (fun h => metaName_ne_chunkName A B j h.symm)
      (chunkName_ne_resultName B A j i)
  · intro j
    exact handler_frame A i N f fs chunkOpt now r store (resultName B j)
      (fun h => chunkName_ne_resultName A B i j h.symm)
      (fun h => metaName_ne_resultName A B j h.symm)
      (fun h => hAB (resultName_inj h).symm)

/-- Witness for C9: a concrete upload for session `a` leaves the files of
session `b` (metadata, chunk 7, result 7) untouched. -/
theorem session_isolation_c9_witness :
    (handler (some ['a']) 0 2 ['f'] 100 (some [1]) 0 0 emptyStore).store
        (metaName ['b']) = emptyStore (metaName ['b']) ∧
      (handler (some ['a']) 0 2 ['f'] 100 (some [1]) 0 0 emptyStore).store
        (chunkName ['b'] 7) = emptyStore (chunkName ['b'] 7) ∧
      (handler (some ['a']) 0 2 ['f'] 100 (some [1]) 0 0 emptyStore).store
        (resultName ['b'] 7) = emptyStore (resultName ['b'] 7) :=
  ⟨(session_isolation_c9 ['a'] ['b'] (by decide) 0 2 ['f'] 100 (some [1]) 0 0
      emptyStore).1,
   (session_isolation_c9 ['a'] ['b'] (by decide) 0 2 ['f'] 100 (some [1]) 0 0
      emptyStore).2.2.1 7,
   (session_isolation_c9 ['a'] ['b'] (by decide) 0 2 ['f'] 100 (some [1]) 0 0
      emptyStore).2.2.2 7⟩

/-! ## Metadata-object lemmas -/

theorem metaLookup_insertMeta_self (m : MetaMap) (i : Nat) (e : MetaEntry) :
    metaLookup (insertMeta m i e) i = some e := by
  induction m with
  | nil => simp [insertMeta, metaLookup]
  | cons hd tl ih =>
    obtain ⟨j, d⟩ := hd
    by_cases h1 : i < j
    · simp [insertMeta, metaLookup, h1]
    · by_cases h2 : i = j
      · simp [insertMeta, metaLookup, h1, h2]
      · simp [insertMeta, metaLookup, h1, h2, ih]

/-- Re-inserting an existing key leaves the number of keys unchanged. -/
theorem insertMeta_insert_same_length (m : MetaMap) (i : Nat)
    (e e' : MetaEntry) :
    (insertMeta (insertMeta m i e) i e').length = (insertMeta m i e).length := by
  induction m with
  | nil => simp [insertMeta]
  | cons hd tl ih =>
    obtain ⟨j, d⟩ := hd
    by_cases h1 : i < j
    · simp [insertMeta, h1, lt_irrefl]
    · by_cases h2 : i = j
      · simp [insertMeta, h1, h2, lt_irrefl]
      · simp [insertMeta, h1, h2, ih]

/-- Inserting a fresh key grows the number of keys by one. -/
theorem insertMeta_fresh_length (m : MetaMap) (i : Nat) (e : MetaEntry)
    (h : metaLookup m i = none) : (insertMeta m i e).length = m.length + 1 := by
  induction m with
  | nil => simp [insertMeta]
  | cons hd tl ih =>
    obtain ⟨j, d⟩ := hd
    by_cases h2 : i = j
    · simp [metaLookup, h2] at h
    · simp only [metaLookup, if_neg h2] at h
      by_cases h1 : i < j
      · simp [insertMeta, h1]
      · simp [insertMeta, h1, h2, ih h]

/-! ## Characterization of the handler on a non-final chunk -/

theorem updStore_self {s : Store} {n : Name} {v : FileData} :
    updStore s n v n = some v := by
  unfold updStore
  rw [if_pos rfl]

/-- On a stored chunk whose index is not `totalChunks - 1`, the handler
stores the chunk bytes, the updated metadata and the fresh result, invokes
the analyzer once, and answers with the partial-progress response. -/
theorem handler_nonfinal (A : Name) (i N : Nat) (f : Name) (fs : Nat)
    (bytes : List Nat) (now : Nat) (r : ℚ) (store : Store)
    (hb : ¬ bytes.length > 104857600) (hlast : i + 1 ≠ N) :
    handler (some A) i N f fs (some bytes) now r store =
      ⟨.partialResp A i N
          (insertMeta (readMeta store A) i
            ⟨bytes.length, md5hex bytes, now⟩).length
          (processChunk bytes i A now r).prediction
          (processChunk bytes i A now r).confidence
          (processChunk bytes i A now r).processingTime,
        updStore
          (updStore (updStore store (chunkName A i) (.chunk bytes))
            (metaName A)
            (.meta (insertMeta (readMeta store A) i
              ⟨bytes.length, md5hex bytes, now⟩)))
          (resultName A i)
          (.result (processChunk bytes i A now r)),
        1⟩ := by
  unfold handler
  dsimp only
  rw [if_neg hb]
  simp only [storeChunkMetadata, Option.getD_some]
  have hrm : readMeta (updStore store (chunkName A i) (.chunk bytes)) A =
      readMeta store A := by
    unfold readMeta
    rw [updStore_ne (metaName_ne_chunkName A A i)]
  rw [hrm, if_neg (fun hc => hlast (And.left hc))]

/-! ## Claim C3 — re-uploading the same chunk -/

/-- Counterexample to C3 as stated: on a byte-identical re-upload of an
already stored chunk the handler does invoke the analyzer again (its
analyzer-call count is not 0), instead of returning a cached result. -/
theorem duplicate_reupload_c3_cex :
    ¬ (handler (some ['s']) 0 2 ['f'] 200 (some [5]) 1 0
        (handler (some ['s']) 0 2 ['f'] 200 (some [5]) 0 0
          emptyStore).store).analyzerCalls = 0 := by decide

/-- Claim C3 as amended: re-uploading the same non-final chunk index with
identical bytes leaves the `receivedChunks` count unchanged and reports the
same prediction-relevant output (the confidence is a deterministic function
of the bytes), but the analyzer is re-invoked on every re-upload rather
than served from a cache. -/
theorem duplicate_reupload_c3 (store : Store) (sid : Name) (i N : Nat)
    (f : Name) (fs : Nat) (bytes : List Nat) (n1 n2 : Nat) (r1 r2 : ℚ)
    (hb : ¬ bytes.length > 104857600) (hlast : i + 1 ≠ N) :
    (handler (some sid) i N f fs (some bytes) n2 r2
        (handler (some sid) i N f fs (some bytes) n1 r1 store).store).analyzerCalls
        = 1 ∧
      respReceived (handler (some sid) i N f fs (some bytes) n2 r2
          (handler (some sid) i N f fs (some bytes) n1 r1 store).store).resp =
        respReceived (handler (some sid) i N f fs (some bytes) n1 r1
          store).resp ∧
      respConfidence (handler (some sid) i N f fs (some bytes) n2 r2
          (handler (some sid) i N f fs (some bytes) n1 r1 store).store).resp =
        respConfidence (handler (some sid) i N f fs (some bytes) n1 r1
          store).resp := by
  rw [handler_nonfinal sid i N f fs bytes n1 r1 store hb hlast]
  rw [handler_nonfinal sid i N f fs bytes n2 r2 _ hb hlast]
  have hrm2 : readMeta
      (updStore
        (updStore (updStore store (chunkName sid i) (.chunk bytes))
          (metaName sid)
          (.meta (insertMeta (readMeta store sid) i
            ⟨bytes.length, md5hex bytes, n1⟩)))
        (resultName sid i)
        (.result (processChunk bytes i sid n1 r1))) sid =
      insertMeta (readMeta store sid) i ⟨bytes.length, md5hex bytes, n1⟩ := by
    unfold readMeta
    rw [updStore_ne (metaName_ne_resultName sid sid i), updStore_self]
  rw [hrm2]
  refine ⟨rfl, ?_, rfl⟩
  simp only [respReceived, Option.some.injEq]
  exact insertMeta_insert_same_length (readMeta store sid) i _ _

/-- Witness for the amended C3 at a concrete duplicate upload. -/
theorem duplicate_reupload_c3_witness :
    (handler (some ['s']) 0 2 ['f'] 200 (some [5]) 1 1
        (handler (some ['s']) 0 2 ['f'] 200 (some [5]) 0 0
          emptyStore).store).analyzerCalls = 1 ∧
      respReceived (handler (some ['s']) 0 2 ['f'] 200 (some [5]) 1 1
          (handler (some ['s']) 0 2 ['f'] 200 (some [5]) 0 0
            emptyStore).store).resp =
        respReceived (handler (some ['s']) 0 2 ['f'] 200 (some [5]) 0 0
          emptyStore).resp ∧
      respConfidence (handler (some ['s']) 0 2 ['f'] 200 (some [5]) 1 1
          (handler (some ['s']) 0 2 ['f'] 200 (some [5]) 0 0
            emptyStore).store).resp =
        respConfidence (handler (some ['s']) 0 2 ['f'] 200 (some [5]) 0 0
          emptyStore).resp :=
  duplicate_reupload_c3 emptyStore ['s'] 0 2 ['f'] 200 [5] 0 1 0 1
    (by decide) (by decide)

/-! ## Claim C1 — permutation-independence of aggregation -/

/-- Failing evaluation for C1: with two chunks uploaded in the order
`[1, 0]` (chunk index 1 first), both requests answer with the
partial-progress response and no aggregate is ever produced, because the
handler aggregates only on the request that both carries index
`totalChunks - 1` and sees all chunks received. -/
theorem out_of_order_never_aggregates_c1 :
    (runUploads ['s'] 2 200 ['f'] (fun i => [i]) [1, 0] emptyStore).1.map
        isCompleted = [false, false] ∧
      countCompleted
        (runUploads ['s'] 2 200 ['f'] (fun i => [i]) [1, 0] emptyStore).1 = 0 := by
  decide

/-! ## Claim C2 — the last-chunk race -/

/-- Failing evaluation for C2: when the final chunk index 1 is submitted
twice (as two racing retries would, here serialized one after the other,
which is one legal concurrent schedule), both of those requests return a
completed aggregate — the completion check `isLastChunk && allChunksReceived`
holds for both, there is no claim step, and the "losing" request does not
report partial progress. -/
theorem duplicate_final_chunk_double_aggregate_c2 :
    (runUploads ['s'] 2 200 ['f'] (fun i => [i]) [0, 1, 1] emptyStore).1.map
        isCompleted = [false, true, true] ∧
      countCompleted
        (runUploads ['s'] 2 200 ['f'] (fun i => [i]) [0, 1, 1] emptyStore).1
        = 2 := by
  decide

/-! ## Claim C5 — validation before storage -/

/-- Counterexample to C5 as stated: a request with `chunkIndex = 5` and
`totalChunks = 2` (index far outside `[0, totalChunks)`) is not rejected —
it succeeds and its metadata record for index 5 is persisted. -/
theorem validation_c5_cex :
    isRejected (handler (some ['s']) 5 2 ['f'] 200 (some [7]) 0 0
        emptyStore).resp = false ∧
      (metaLookup (readMeta (handler (some ['s']) 5 2 ['f'] 200 (some [7]) 0 0
          emptyStore).store ['s']) 5).isSome = true := by
  decide

/-- Claim C5 as amended: the only rejections that happen before any storage
write are a missing chunk payload (HTTP 400) and a payload above the 100 MB
form-parser limit (surfaced as a 500) — in both cases the store is
untouched; a `chunkIndex` outside `[0, totalChunks)` is not rejected: the
chunk is persisted, analyzed and recorded under its out-of-range index, and
the 5 MiB per-chunk limit is not enforced by this endpoint. -/
theorem validation_c5 :
    (∀ (sidOpt : Option Name) (i N : Nat) (f : Name) (fs now : Nat) (r : ℚ)
        (store : Store),
      (handler sidOpt i N f fs none now r store).resp = Response.noChunk ∧
        (handler sidOpt i N f fs none now r store).store = store) ∧
    (∀ (sidOpt : Option Name) (i N : Nat) (f : Name) (fs : Nat)
        (bytes : List Nat) (now : Nat) (r : ℚ) (store : Store),
      bytes.length > 104857600 →
      (handler sidOpt i N f fs (some bytes) now r store).resp =
          Response.tooLarge ∧
        (handler sidOpt i N f fs (some bytes) now r store).store = store) ∧
    (∀ (sid : Name) (i N : Nat) (f : Name) (fs : Nat) (bytes : List Nat)
        (now : Nat) (r : ℚ) (store : Store),
      ¬ bytes.length > 104857600 → N ≤ i →
      isRejected (handler (some sid) i N f fs (some bytes) now r store).resp
          = false ∧
        metaLookup (readMeta
            (handler (some sid) i N f fs (some bytes) now r store).store sid) i
          = some ⟨bytes.length, md5hex bytes, now⟩) := by
  refine ⟨fun sidOpt i N f fs now r store => ⟨rfl, rfl⟩, ?_, ?_⟩
  · intro sidOpt i N f fs bytes now r store hbig
    unfold handler
    dsimp only
    rw [if_pos hbig]
    exact ⟨rfl, rfl⟩
  · intro sid i N f fs bytes now r store hb hout
    have hlast : i + 1 ≠ N := by omega
    rw [handler_nonfinal sid i N f fs bytes now r store hb hlast]
    refine ⟨rfl, ?_⟩
    have hrm : readMeta
        (updStore
          (updStore (updStore store (chunkName sid i) (.chunk bytes))
            (metaName sid)
            (.meta (insertMeta (readMeta store sid) i
              ⟨bytes.length, md5hex bytes, now⟩)))
          (resultName sid i)
          (.result (processChunk bytes i sid now r))) sid =
        insertMeta (readMeta store sid) i
          ⟨bytes.length, md5hex bytes, now⟩ := by
      unfold readMeta
      rw [updStore_ne (metaName_ne_resultName sid sid i), updStore_self]
    rw [hrm, metaLookup_insertMeta_self]

/-- Witness for the amended C5 at concrete inputs (no payload; an oversized
payload of 104857601 bytes; an out-of-range index 5 of 2). -/
theorem validation_c5_witness :
    ((handler (some ['s']) 0 2 ['f'] 200 none 0 0 emptyStore).resp =
        Response.noChunk ∧
      (handler (some ['s']) 0 2 ['f'] 200 none 0 0 emptyStore).store =
        emptyStore) ∧
    ((handler (some ['s']) 0 2 ['f'] 200 (some (List.replicate 104857601 0))
          0 0 emptyStore).resp = Response.tooLarge ∧
      (handler (some ['s']) 0 2 ['f'] 200 (some (List.replicate 104857601 0))
          0 0 emptyStore).store = emptyStore) ∧
    (isRejected (handler (some ['s']) 5 2 ['f'] 200 (some [9]) 0 0
          emptyStore).resp = false ∧
      metaLookup (readMeta (handler (some ['s']) 5 2 ['f'] 200 (some [9]) 0 0
          emptyStore).store ['s']) 5 = some ⟨1, md5hex [9], 0⟩) :=
  ⟨validation_c5.1 (some ['s']) 0 2 ['f'] 200 0 0 emptyStore,
   validation_c5.2.1 (some ['s']) 0 2 ['f'] 200 (List.replicate 104857601 0)
     0 0 emptyStore (by rw [List.length_replicate]; decide),
   validation_c5.2.2 ['s'] 5 2 ['f'] 200 [9] 0 0 emptyStore (by decide)
     (by decide)⟩

/-! ## Claim C6 — re-declared session parameters -/

/-- Result file names with visibly different decimal indices differ. -/
theorem resultName_ne_of_index (A : Name) {i j : Nat}
    (hij : natChars i ≠ natChars j) : resultName A i ≠ resultName A j := by
  intro h
  have hrev := congrArg List.reverse h
  rw [resultName_rev, resultName_rev] at hrev
  simp only [List.cons.injEq, true_and] at hrev
  have hdd := digits_dash_inj _ _ _ _
    (fun c hc => natChars_digits i c (List.mem_reverse.mp hc))
    (fun c hc => natChars_digits j c (List.mem_reverse.mp hc)) hrev
  exact hij (List.reverse_injective hdd.1)

/-- Counterexample to C6 as stated: after chunk 0 of session `s` was
declared with `totalChunks = 3`, `fileSize = 300`, a second request
re-declares `totalChunks = 2`, `fileSize = 200` for the same session — it
is not rejected with a conflict; it is accepted and even completes the
session under the new declaration. -/
theorem session_conflict_c6_cex :
    isCompleted (handler (some ['s']) 1 2 ['f'] 200 (some [1]) 1 0
        (handler (some ['s']) 0 3 ['f'] 300 (some [0]) 0 0
          emptyStore).store).resp = true := by
  decide

/-- Claim C6 as amended: no conflict check exists.  A chunk re-declaring an
existing session with different `totalChunks`/`fileSize` is processed using
the newly declared values together with the previously stored chunks: here
the mismatched second request completes the session, aggregating both the
old chunk 0 and the new chunk 1 (`total_chunks = 2`) under the re-declared
`fileSize = 200`. -/
theorem session_conflict_c6 (sid f : Name) (b0 b1 : List Nat)
    (h0 : ¬ b0.length > 104857600) (h1 : ¬ b1.length > 104857600) :
    isCompleted (handler (some sid) 1 2 f 200 (some b1) 1 0
        (handler (some sid) 0 3 f 300 (some b0) 0 0
          emptyStore).store).resp = true ∧
      (respResult (handler (some sid) 1 2 f 200 (some b1) 1 0
          (handler (some sid) 0 3 f 300 (some b0) 0 0
            emptyStore).store).resp).map AggregateResult.file_size =
        some 200 ∧
      (respResult (handler (some sid) 1 2 f 200 (some b1) 1 0
          (handler (some sid) 0 3 f 300 (some b0) 0 0
            emptyStore).store).resp).map AggregateResult.total_chunks =
        some 2 := by
  rw [handler_nonfinal sid 0 3 f 300 b0 0 0 emptyStore h0 (by omega)]
  unfold handler
  dsimp only
  rw [if_neg h1]
  simp only [storeChunkMetadata, Option.getD_some]
  have hrm : readMeta
      (updStore
        (updStore
          (updStore (updStore emptyStore (chunkName sid 0) (.chunk b0))
            (metaName sid)
            (.meta (insertMeta (readMeta emptyStore sid) 0
              ⟨b0.length, md5hex b0, 0⟩)))
          (resultName sid 0) (.result (processChunk b0 0 sid 0 0)))
        (chunkName sid 1) (.chunk b1)) sid =
      insertMeta (readMeta emptyStore sid) 0 ⟨b0.length, md5hex b0, 0⟩ := by
    unfold readMeta
    rw [updStore_ne (metaName_ne_chunkName sid sid 1),
      updStore_ne (metaName_ne_resultName sid sid 0), updStore_self]
  rw [hrm]
  rw [show List.range 2 = [0, 1] from rfl]
  have hl0 :
      updStore
        (updStore
          (updStore
            (updStore
              (updStore (updStore emptyStore (chunkName sid 0) (.chunk b0))
                (metaName sid)
                (.meta (insertMeta (readMeta emptyStore sid) 0
                  ⟨b0.length, md5hex b0, 0⟩)))
              (resultName sid 0) (.result (processChunk b0 0 sid 0 0)))
            (chunkName sid 1) (.chunk b1))
          (metaName sid)
          (.meta (insertMeta (insertMeta (readMeta emptyStore sid) 0
            ⟨b0.length, md5hex b0, 0⟩) 1 ⟨b1.length, md5hex b1, 1⟩)))
        (resultName sid 1) (.result (processChunk b1 1 sid 1 0))
        (resultName sid 0) = some (.result (processChunk b0 0 sid 0 0)) := by
    rw [updStore_ne (resultName_ne_of_index sid (by decide)),
      updStore_ne (fun h => metaName_ne_resultName sid sid 0 h.symm),
      updStore_ne (fun h => chunkName_ne_resultName sid sid 1 0 h.symm),
      updStore_self]
  have hl1 :
      updStore
        (updStore
          (updStore
            (updStore
              (updStore (updStore emptyStore (chunkName sid 0) (.chunk b0))
                (metaName sid)
                (.meta (insertMeta (readMeta emptyStore sid) 0
                  ⟨b0.length, md5hex b0, 0⟩)))
              (resultName sid 0) (.result (processChunk b0 0 sid 0 0)))
            (chunkName sid 1) (.chunk b1))
          (metaName sid)
          (.meta (insertMeta (insertMeta (readMeta emptyStore sid) 0
            ⟨b0.length, md5hex b0, 0⟩) 1 ⟨b1.length, md5hex b1, 1⟩)))
        (resultName sid 1) (.result (processChunk b1 1 sid 1 0))
        (resultName sid 1) = some (.result (processChunk b1 1 sid 1 0)) :=
    updStore_self
  simp only [List.filterMap_cons, List.filterMap_nil]
  rw [hl0, hl1]
  split
  · exact ⟨rfl, rfl, rfl⟩
  · next hcond => exact absurd ⟨trivial, rfl⟩ hcond

/-- Witness for the amended C6 at concrete chunk bytes. -/
theorem session_conflict_c6_witness :
    isCompleted (handler (some ['s']) 1 2 ['f'] 200 (some [8]) 1 0
        (handler (some ['s']) 0 3 ['f'] 300 (some [7]) 0 0
          emptyStore).store).resp = true ∧
      (respResult (handler (some ['s']) 1 2 ['f'] 200 (some [8]) 1 0
          (handler (some ['s']) 0 3 ['f'] 300 (some [7]) 0 0
            emptyStore).store).resp).map AggregateResult.file_size =
        some 200 ∧
      (respResult (handler (some ['s']) 1 2 ['f'] 200 (some [8]) 1 0
          (handler (some ['s']) 0 3 ['f'] 300 (some [7]) 0 0
            emptyStore).store).resp).map AggregateResult.total_chunks =
        some 2 :=
  session_conflict_c6 ['s'] ['f'] [7] [8] (by decide) (by decide)

/-! ## Claim C7 — session expiry -/

/-- Counterexample to C7 as stated: chunk 0 of a 2-chunk session arrives at
time 0; chunk 1 arrives two hours later (7200000 ms with a 1-hour maximum
session age) and nevertheless resumes the old session and completes it —
the session was never expired and no brand-new session was started. -/
theorem session_expiry_c7_cex :
    isCompleted (handler (some ['s']) 1 2 ['f'] 200 (some [4]) 7200000 0
        (handler (some ['s']) 0 2 ['f'] 200 (some [3]) 0 0
          emptyStore).store).resp = true := by
  decide

/-- Claim C7 as amended: sessions never expire.  Whatever the current time
`now` — arbitrarily far after the timestamps stored in the session's
metadata — a chunk with a fresh index resumes the stored metadata and
reports `receivedChunks` equal to the old count plus one; no state of the
session is discarded by the passage of time. -/
theorem session_expiry_c7 (store : Store) (sid f : Name) (m : MetaMap)
    (i N : Nat) (fs : Nat) (bytes : List Nat) (now : Nat) (r : ℚ)
    (hmeta : store (metaName sid) = some (.meta m))
    (hfresh : metaLookup m i = none)
    (hb : ¬ bytes.length > 104857600) (hlast : i + 1 ≠ N) :
    respReceived (handler (some sid) i N f fs (some bytes) now r store).resp
      = some (m.length + 1) := by
  rw [handler_nonfinal sid i N f fs bytes now r store hb hlast]
  simp only [respReceived, Option.some.injEq]
  have hrm : readMeta store sid = m := by
    unfold readMeta
    rw [hmeta]
  rw [hrm, insertMeta_fresh_length m i _ hfresh]

/-- Witness for the amended C7: chunk 1 arriving two hours after chunk 0
still counts the old chunk (`receivedChunks = 2`). -/
theorem session_expiry_c7_witness :
    respReceived (handler (some ['s']) 1 3 ['f'] 200 (some [4]) 7200000 0
        (handler (some ['s']) 0 3 ['f'] 200 (some [3]) 0 0
          emptyStore).store).resp = some 2 :=
  session_expiry_c7 _ ['s'] ['f'] [(0, ⟨1, md5hex [3], 0⟩)] 1 3 200 [4]
    7200000 0 (by decide) (by decide) (by decide) (by decide)

/-! ## Claim C8 — derivation of the session id -/

/-- The session id reported by a successful request that carries a chunk. -/
theorem handler_respSessionId (sidOpt : Option Name) (i N : Nat) (f : Name)
    (fs : Nat) (bytes : List Nat) (now : Nat) (r : ℚ) (store : Store)
    (hb : ¬ bytes.length > 104857600) :
    respSessionId (handler sidOpt i N f fs (some bytes) now r store).resp =
      some (sidOpt.getD (generateSessionId f fs N now)) := by
  unfold handler
  dsimp only
  rw [if_neg hb]
  split <;> rfl

/-- Counterexample to C8 as stated: two requests that omit `sessionId` and
supply the same `filename`, `fileSize` and `totalChunks` but run one
millisecond apart obtain different session ids, because `Date.now()` is
hashed into the id. -/
theorem session_id_time_dependent_c8_cex :
    respSessionId (handler none 0 2 ['a'] 100 (some [5]) 0 0
        emptyStore).resp ≠
      respSessionId (handler none 0 2 ['a'] 100 (some [5]) 1 0
        emptyStore).resp := by
  decide

/-- Claim C8 as amended: when `sessionId` is omitted the id is derived
deterministically from `filename`, `fileSize`, `totalChunks` AND the
current time `Date.now()`: two omitting calls with the same four values
obtain the same session id whatever their stores, chunk indices, chunk
bytes or random draws; calls at different milliseconds hash different
strings and obtain different ids. -/
theorem session_id_derivation_c8 (f : Name) (s c now : Nat)
    (i1 i2 : Nat) (b1 b2 : List Nat) (r1 r2 : ℚ) (st1 st2 : Store)
    (h1 : ¬ b1.length > 104857600) (h2 : ¬ b2.length > 104857600) :
    respSessionId (handler none i1 c f s (some b1) now r1 st1).resp =
        some (generateSessionId f s c now) ∧
      respSessionId (handler none i2 c f s (some b2) now r2 st2).resp =
        some (generateSessionId f s c now) := by
  constructor
  · rw [handler_respSessionId none i1 c f s b1 now r1 st1 h1]
    rfl
  · rw [handler_respSessionId none i2 c f s b2 now r2 st2 h2]
    rfl

/-- Witness for the amended C8: two concrete omitting calls at the same
time, with different stores, indices, bytes and random draws, report the
same derived session id. -/
theorem session_id_derivation_c8_witness :
    respSessionId (handler none 0 2 ['a'] 100 (some [5]) 3 0
        emptyStore).resp = some (generateSessionId ['a'] 100 2 3) ∧
      respSessionId (handler none 1 2 ['a'] 100 (some [9]) 3 1
        (updStore emptyStore ['q'] (.chunk [0]))).resp =
        some (generateSessionId ['a'] 100 2 3) :=
  session_id_derivation_c8 ['a'] 100 2 3 0 1 [5] [9] 0 1 emptyStore
    (updStore emptyStore ['q'] (.chunk [0])) (by decide) (by decide)

end Interceptor
